import Mathlib

/-!
Verification of the kproc process-control engine.

This file is a shallow embedding of the TypeScript sources of the kproc
repository (modules kill, core, cache, lookup, utils) into Lean 4, together
with theorems settling the frozen claims about them.

Modelling conventions:
- OS interactions (shell command executions, liveness probes) are modelled by
  an explicit environment `Env` that answers the n-th liveness command and the
  n-th kill command; a state `PState` threads the two call counters exactly in
  the order the code issues the calls. Every externally visible action is
  recorded in a trace of `Event`s.
- The process table seen by the child-lookup command `ps -o pid= --ppid` is a
  finite association table `List (Nat × List Nat)` (an operating system has a
  finite process table); pids absent from the table have no children, which is
  also how `findChildPidsOnce` absorbs a failing command into an empty result.
- PIDs and ports are `Nat`; the JavaScript validation `Number.isInteger(pid)
  && pid > 0` becomes the check `pid = 0` (non-integers are not representable).
- Timestamps and TTLs of the cache are `Int`, so that the JavaScript
  subtraction `now - entry.timestamp` is computed exactly, including a clock
  that moved backwards.
- Logging (`log.debug` and friends) and the `debug` option have no observable
  effect beyond the console and are not modelled; `timeoutMs` is forwarded to
  the command runner whose outcome the environment already decides, so it does
  not appear separately.
-/

namespace KProc

/-! ## Data model: signals, options, results (src/types.ts) -/

/-- A POSIX signal name or raw number, as in the `UnixSignal` type. -/
inductive Sig where
  | SIGTERM
  | SIGKILL
  | SIGINT
  | SIGHUP
  | SIGQUIT
  | num (n : Int)
deriving DecidableEq, Repr

/-- Outcome of a failed shell command execution: `execText` rejects with a
`CommandExecutionError` or (past its deadline) a `TimeoutError`. -/
inductive ExecErr where
  | cmdFailed (msg : String)
  | timedOut (msg : String)
deriving DecidableEq, Repr

/-- The `KillOptions` record with the defaults of `killByPid`
(src/unnamed/part_002 lines 55 to 65). `timeoutMs` and `debug` do not
influence the modelled behaviour and are omitted. -/
structure KillOptions where
  signal : Sig := .SIGTERM
  dryRun : Bool := false
  tree : Bool := false
  forceAfterTimeout : Bool := false
  escalationDelayMs : Nat := 3000
  verify : Bool := false
  retries : Nat := 0
deriving Repr

/-- The `KillResult` record: optional fields are `Option`s, a field the code
leaves out is `none`. -/
structure KillResult where
  pid : Nat
  success : Bool
  signal : Option Sig := none
  error : Option String := none
  verified : Option Bool := none
deriving DecidableEq, Repr

/-- Externally visible actions of one kill operation, in program order.
`probe` is one `isProcessAlive` call (carrying its result), `killCmd` one
terminate command (`kill -s`, `kill -9` or `taskkill`) with its success flag,
`escalate` the assignment `usedSignal = "SIGKILL"` (carrying the signal it
replaced, the configured delay that was waited, and the index of the liveness
probe whose answer triggered it), `sleep` a timer wait. -/
inductive Event where
  | probe (pid : Nat) (res : Bool)
  | killCmd (target : Nat) (sig : Sig) (ok : Bool)
  | escalate (pid : Nat) (fromSig : Sig) (toSig : Sig) (delayMs : Nat) (aliveIdx : Nat)
  | sleep (ms : Nat)
deriving DecidableEq, Repr

/-- True exactly on terminate-command events. -/
def isKillEvent : Event → Bool
  | .killCmd _ _ _ => true
  | _ => false

/-- True exactly on escalation events. -/
def isEscEvent : Event → Bool
  | .escalate _ _ _ _ _ => true
  | _ => false

/-! ## utils.ts: isProcessAlive -/

/-- `isProcessAlive` (src/unnamed/part_003 lines 136 to 151), as a function of
the raw outcome of its single shell command (`tasklist` on Windows, `kill -0`
on Unix, both with a fixed 1000 ms deadline). Any error, command failure or
timeout alike, yields `false`; on Windows a successful command still requires
the pid to occur as a substring of the output. -/
def isProcessAlive (win : Bool) (pid : Nat) (execRes : Except ExecErr String) : Bool :=
  match execRes with
  | .error _ => false
  | .ok out => if win then decide (List.IsInfix (toString pid).toList out.toList) else true

/-! ## The environment and probe state -/

/-- The outside world as one kill operation observes it: the raw result of the
n-th liveness command, the outcome of the n-th terminate command (`none` is
success, `some msg` a rejection carrying the error message), and the process
table answering child lookups. -/
structure Env where
  aliveExec : Nat → Except ExecErr String
  kill : Nat → Option String
  children : List (Nat × List Nat)

/-- Call counters for the two command families of `Env`. -/
structure PState where
  aliveIdx : Nat
  killIdx : Nat
deriving DecidableEq, Repr

/-! ## cache.ts -/

/-- Default cache time-to-live (`DEFAULT_CACHE_TTL_MS`). -/
def DEFAULT_CACHE_TTL_MS : Int := 1000

/-- The in-memory cache `Map`, as a function from key to the stored
`{data, timestamp}` entry. -/
def Cache (V : Type) : Type := String → Option (V × Int)

/-- The cache after `clearCache()` (and the initial cache). -/
def emptyCache (V : Type) : Cache V := fun _ => none

/-- `getCached` (src/cache.ts lines 61 to 83) at one instant `now`. The
fetcher is modelled by the value `fval` it would produce; the returned
Boolean records whether the fetcher was invoked. A hit requires an entry with
`now - timestamp < ttl` (strict, so age exactly `ttl` is expired); a miss
stores `(fval, now)` wholesale under the key. -/
def getCached (V : Type) (now : Int) (key : String) (fval : V) (ttl : Int) (c : Cache V) :
    V × Cache V × Bool :=
  match c key with
  | some (v, ts) =>
    if now - ts < ttl then (v, c, false)
    else (fval, fun k => if k = key then some (fval, now) else c k, true)
  | none => (fval, fun k => if k = key then some (fval, now) else c k, true)

/-- A sequence of `getCached` calls for one key at the given instants,
returning the final cache and how many times the fetcher ran. -/
def cacheRun (V : Type) (key : String) (fval : V) (ttl : Int) :
    List Int → Cache V → Cache V × Nat
  | [], c => (c, 0)
  | t :: ts, c =>
    let step := getCached V t key fval ttl c
    let rest := cacheRun V key fval ttl ts step.2.1
    (rest.1, (if step.2.2 then 1 else 0) + rest.2)

/-! ## core.ts: findDescendantPids -/

/-- Lookup of a pid in the process table: the result of `findChildPidsOnce`,
with a pid absent from the table (or whose command failed) giving `[]`. -/
def probeLookup : List (Nat × List Nat) → Nat → List Nat
  | [], _ => []
  | (k, cs) :: rest, q => if k = q then cs else probeLookup rest q

/-- Total length of all child lists still keyed by an unvisited pid; the
termination measure of the breadth-first search. -/
def childSum : List (Nat × List Nat) → List Nat → Nat
  | [], _ => 0
  | e :: rest, visited => (if e.1 ∈ visited then 0 else e.2.length) + childSum rest visited

/-- Fuel that always suffices for the breadth-first search from one root. -/
def bfsFuel (probe : List (Nat × List Nat)) : Nat :=
  1 + childSum probe []

/-- The `while` loop of `findDescendantPids` (src/core.ts lines 108 to 131),
made total with explicit fuel; `none` means the fuel ran out with work left
(`bfsAux_total` proves this never happens at `bfsFuel`). Each iteration pops
the queue head; an unvisited head is marked visited, its children are fetched,
and every child not yet visited is appended to both the result and the queue.
The second returned list is the final visited set, i.e. the pids whose
children were fetched. -/
def bfsAux (probe : List (Nat × List Nat)) :
    Nat → List Nat → List Nat → List Nat → Option (List Nat × List Nat)
  | _, [], visited, acc => some (acc, visited)
  | 0, _ :: _, _, _ => none
  | fuel + 1, current :: qs, visited, acc =>
    if current ∈ visited then
      bfsAux probe fuel qs visited acc
    else
      let fresh := (probeLookup probe current).filter (fun c => decide (c ∉ current :: visited))
      bfsAux probe fuel (qs ++ fresh) (current :: visited) (acc ++ fresh)

/-- `findDescendantPids` (src/core.ts lines 100 to 139): breadth-first
traversal from `pid`, with the root filtered out of the returned sequence. -/
def findDescendantPids (probe : List (Nat × List Nat)) (pid : Nat) : List Nat :=
  match bfsAux probe (bfsFuel probe) [pid] [] [] with
  | some (acc, _) => acc.filter (fun p => p != pid)
  | none => []

/-! ## kill module: killByPid (src/unnamed/part_002 lines 48 to 175) -/

/-- The `for (const child of descendants)` loop of the tree branch (lines 106
to 113): one `kill -s sig child` per descendant, in discovery order, each
outcome swallowed by its own try/catch. Returns the events; the caller
advances the kill counter by the list length. -/
def killChildren (env : Env) (sig : Sig) : Nat → List Nat → List Event
  | _, [] => []
  | k, c :: cs => Event.killCmd c sig (env.kill k).isNone :: killChildren env sig (k + 1) cs

/-- The terminate phase of one attempt (lines 92 to 118): on Windows a single
`taskkill`; on Unix, optionally the descendant loop, then `kill -s sig pid`
for the root. Returns the failure message of the root command (`none` on
success), the advanced state, and the events. -/
def attemptKillPhase (env : Env) (win : Bool) (cfg : KillOptions) (pid : Nat)
    (usedSignal : Sig) (s : PState) : Option String × PState × List Event :=
  if win then
    let r := env.kill s.killIdx
    (r, { s with killIdx := s.killIdx + 1 }, [Event.killCmd pid usedSignal r.isNone])
  else
    let descendants := if cfg.tree then findDescendantPids env.children pid else []
    let childEvs := killChildren env usedSignal s.killIdx descendants
    let k1 := s.killIdx + descendants.length
    let r := env.kill k1
    (r, { s with killIdx := k1 + 1 },
      childEvs ++ [Event.killCmd pid usedSignal r.isNone])

/-- The escalation phase of one attempt (lines 123 to 133): only when
`forceAfterTimeout` is set, not on Windows, and the signal in use is not
already `SIGKILL`; waits `escalationDelayMs`, re-probes, and if the process
is still alive records the escalation, switches the signal in use to
`SIGKILL` and runs `kill -9 pid` (whose failure fails the attempt). Returns
(failure message, signal now in use, state, events). -/
def attemptEscalate (env : Env) (win : Bool) (cfg : KillOptions) (pid : Nat)
    (usedSignal : Sig) (s : PState) : Option String × Sig × PState × List Event :=
  if cfg.forceAfterTimeout && !win && usedSignal != Sig.SIGKILL then
    let stillAlive := isProcessAlive win pid (env.aliveExec s.aliveIdx)
    let s1 : PState := { s with aliveIdx := s.aliveIdx + 1 }
    if stillAlive then
      let r := env.kill s1.killIdx
      (r, Sig.SIGKILL, { s1 with killIdx := s1.killIdx + 1 },
        [Event.sleep cfg.escalationDelayMs, Event.probe pid stillAlive,
         Event.escalate pid usedSignal Sig.SIGKILL cfg.escalationDelayMs s.aliveIdx,
         Event.killCmd pid Sig.SIGKILL r.isNone])
    else
      (none, usedSignal, s1,
        [Event.sleep cfg.escalationDelayMs, Event.probe pid stillAlive])
  else
    (none, usedSignal, s, [])

/-- The verification phase of one attempt (lines 136 to 148): with `verify`,
wait 100 ms, re-probe, and either fail the attempt with the still-alive error
or return the verified success; without `verify`, return plain success. -/
def attemptVerify (env : Env) (win : Bool) (cfg : KillOptions) (pid : Nat)
    (usedSignal : Sig) (s : PState) : Except String KillResult × PState × List Event :=
  if cfg.verify then
    let stillAlive := isProcessAlive win pid (env.aliveExec s.aliveIdx)
    let s1 : PState := { s with aliveIdx := s.aliveIdx + 1 }
    if stillAlive then
      (.error ("Process " ++ toString pid ++ " is still alive after kill attempt"), s1,
        [Event.sleep 100, Event.probe pid stillAlive])
    else
      (.ok { pid := pid, success := true, signal := some usedSignal, verified := some true }, s1,
        [Event.sleep 100, Event.probe pid stillAlive])
  else
    (.ok { pid := pid, success := true, signal := some usedSignal }, s, [])

/-- One iteration of the retry loop (the `try` block, lines 89 to 149):
terminate phase, then escalation, then verification. Returns the attempt
outcome, the signal in use afterwards, the state, and the events. -/
def runAttempt (env : Env) (win : Bool) (cfg : KillOptions) (pid : Nat)
    (usedSignal : Sig) (s : PState) :
    Except String KillResult × Sig × PState × List Event :=
  let kp := attemptKillPhase env win cfg pid usedSignal s
  match kp.1 with
  | some msg => (.error msg, usedSignal, kp.2.1, kp.2.2)
  | none =>
    let ep := attemptEscalate env win cfg pid usedSignal kp.2.1
    match ep.1 with
    | some msg => (.error msg, ep.2.1, ep.2.2.1, kp.2.2 ++ ep.2.2.2)
    | none =>
      let vp := attemptVerify env win cfg pid ep.2.1 ep.2.2.1
      (vp.1, ep.2.1, vp.2.1, kp.2.2 ++ ep.2.2.2 ++ vp.2.2)

/-- The retry loop (`while attempt <= retries`, lines 88 to 162), with fuel =
remaining iterations (entered with `retries + 1`). On an attempt failure with
fuel left, wait 500 ms and retry carrying the (possibly escalated) signal;
with no fuel left, return the failure result built at lines 168 to 174. The
fuel-0 case is the unreachable `lastError?.message || fallback` path. -/
def attemptLoop (env : Env) (win : Bool) (cfg : KillOptions) (pid : Nat) :
    Nat → Sig → PState → KillResult × PState × List Event
  | 0, usedSignal, s =>
    ({ pid := pid, success := false, signal := some usedSignal,
       error := some "Unknown error", verified := some false }, s, [])
  | fuel + 1, usedSignal, s =>
    match runAttempt env win cfg pid usedSignal s with
    | (.ok res, _, s1, evs) => (res, s1, evs)
    | (.error msg, sig1, s1, evs) =>
      match fuel with
      | 0 =>
        ({ pid := pid, success := false, signal := some sig1,
           error := some msg, verified := some false }, s1, evs)
      | f + 1 =>
        let rest := attemptLoop env win cfg pid (f + 1) sig1 s1
        (rest.1, rest.2.1, evs ++ Event.sleep 500 :: rest.2.2)

/-- `killByPid` (src/unnamed/part_002 lines 48 to 175): validate the pid
(throwing `InvalidInputError`, the `.error` case), honour `dryRun`, pre-check
liveness and short-circuit an already dead process, then run the retry loop.
The returned trace lists every probe, terminate command, escalation and timer
wait in order. -/
def killByPid (env : Env) (win : Bool) (pid : Nat) (cfg : KillOptions) :
    Except String (KillResult × List Event) :=
  if pid = 0 then
    .error ("Invalid PID: " ++ toString pid ++ ". Must be a positive integer.")
  else if cfg.dryRun then
    .ok ({ pid := pid, success := true, signal := some cfg.signal }, [])
  else
    let alive0 := isProcessAlive win pid (env.aliveExec 0)
    if alive0 then
      let run := attemptLoop env win cfg pid (cfg.retries + 1) cfg.signal ⟨1, 0⟩
      .ok (run.1, Event.probe pid alive0 :: run.2.2)
    else
      .ok ({ pid := pid, success := true, verified := some true }, [Event.probe pid false])

/-! ## Batch layer and port discovery (kill and lookup modules) -/

/-- The world seen by the multi-target entry points: each pid gets its own
independent interleaving of command outcomes (`Promise.allSettled` runs the
per-pid kills concurrently), and `portLookup` is the settled outcome of
`findPidsByPort`s cache-backed fetch for a valid port (its parsed, deduplicated
pid list, or the message of a non-CommandExecution rejection). -/
structure World where
  envOf : Nat → Env
  portLookup : Nat → Except String (List Nat)

/-- How `killByPids` settles one task (lines 215 to 225): a fulfilled
`killByPid` contributes its result, a rejected one becomes
`{pid, success: false, error}` at the same position. -/
def settleKill (w : World) (win : Bool) (cfg : KillOptions) (pid : Nat) : KillResult :=
  match killByPid (w.envOf pid) win pid cfg with
  | .ok (r, _) => r
  | .error msg => { pid := pid, success := false, error := some msg }

/-- `killByPids` (lines 202 to 235): reject an empty array, otherwise one
settled `killByPid` per pid, in input order. -/
def killByPids (w : World) (win : Bool) (pids : List Nat) (cfg : KillOptions) :
    Except String (List KillResult) :=
  if pids.isEmpty then .error "PIDs array must be non-empty"
  else .ok (pids.map (settleKill w win cfg))

/-- `findPidsByPort` (src/unnamed/part_002, lookup module, lines 547 to 598):
validate the port range, then the cached platform lookup. -/
def findPidsByPort (w : World) (port : Nat) : Except String (List Nat) :=
  if port < 1 ∨ port > 65535 then
    .error ("Invalid port number: " ++ toString port ++ ". Must be between 1 and 65535.")
  else w.portLookup port

/-- `findPidByPort` (lines 620 to 628): the first discovered pid, or a
`ProcessNotFoundError` when the port has none. -/
def findPidByPort (w : World) (port : Nat) : Except String Nat :=
  match findPidsByPort w port with
  | .error m => .error m
  | .ok [] => .error ("No process found on port " ++ toString port)
  | .ok (p :: _) => .ok p

/-- `killByPort` (lines 257 to 262): discover the main pid on the port, then
kill it; discovery errors propagate. -/
def killByPort (w : World) (win : Bool) (port : Nat) (cfg : KillOptions) :
    Except String (KillResult × List Event) :=
  match findPidByPort w port with
  | .error m => .error m
  | .ok pid => killByPid (w.envOf pid) win pid cfg

/-- One insertion into the `Set<number>` of `killByPorts`, keeping first
occurrences in insertion order. -/
def insertUnique (acc : List Nat) (x : Nat) : List Nat :=
  if x ∈ acc then acc else acc ++ [x]

/-- JavaScript `Set` deduplication in insertion order. -/
def dedupFirst (l : List Nat) : List Nat := l.foldl insertUnique []

/-- The deduplicated union of the per-port discoveries (lines 294 to 308):
a rejected port lookup contributes an error message but no pids. -/
def portsUnion (w : World) (ports : List Nat) : List Nat :=
  dedupFirst (ports.flatMap (fun p =>
    match findPidsByPort w p with
    | .ok pids => pids
    | .error _ => []))

/-- `killByPorts` (lines 287 to 318): reject an empty array, discover all pids
across the ports, throw `ProcessNotFoundError` when the union is empty, else
delegate to `killByPids`. -/
def killByPorts (w : World) (win : Bool) (ports : List Nat) (cfg : KillOptions) :
    Except String (List KillResult) :=
  if ports.isEmpty then .error "Ports array must be non-empty"
  else
    let unique := portsUnion w ports
    if unique.isEmpty then .error "No processes found on ports"
    else killByPids w win unique cfg

/-- `killByPortRange` (lines 343 to 361): validate the range, expand it to the
explicit port list `[start..endP]`, delegate to `killByPorts`. -/
def killByPortRange (w : World) (win : Bool) (start endP : Nat) (cfg : KillOptions) :
    Except String (List KillResult) :=
  if endP < start then .error "Invalid port range: end < start"
  else if start < 1 ∨ endP > 65535 then .error "Port range must be between 1 and 65535"
  else killByPorts w win (List.range' start (endP - start + 1)) cfg

/-! ## Small observers and sample environments used by witnesses -/

/-- The target of a terminate-command event, `none` for every other event. -/
def killTarget : Event → Option Nat
  | .killCmd t _ _ => some t
  | _ => none

/-- Upper bound on the number of escalations a run may still perform, given
the signal currently in use. -/
def escBound (sig : Sig) : Nat := if sig = Sig.SIGKILL then 0 else 1

/-- Every escalation event in the trace is well formed: it targets the
operation pid, replaces a non-SIGKILL signal by SIGKILL, waited the configured
delay, happened with `forceAfterTimeout` set on the POSIX path, and its
deciding liveness probe answered alive. -/
def GoodEsc (env : Env) (win : Bool) (pid : Nat) (cfg : KillOptions)
    (tr : List Event) : Prop :=
  ∀ p f t d i, Event.escalate p f t d i ∈ tr →
    p = pid ∧ f ≠ Sig.SIGKILL ∧ t = Sig.SIGKILL ∧ d = cfg.escalationDelayMs ∧
    cfg.forceAfterTimeout = true ∧ win = false ∧
    isProcessAlive win pid (env.aliveExec i) = true

/-- An environment whose liveness command always errors (dead process) and
whose kill commands would succeed. -/
def envDead : Env :=
  { aliveExec := fun _ => .error (.cmdFailed "kill: No such process"),
    kill := fun _ => none, children := [] }

/-- An environment whose process is alive on every probe and whose kill
commands all succeed. -/
def envUp : Env :=
  { aliveExec := fun _ => .ok "", kill := fun _ => none, children := [] }

/-- An environment whose kill commands all fail, with the command index as
the error message. -/
def envAllFail : Env :=
  { aliveExec := fun _ => .ok "", kill := fun i => some (toString i), children := [] }

/-- A process table with a cycle and a pid (4) reported as child of two
parents. -/
def probeCyc : List (Nat × List Nat) := [(1, [2, 3]), (2, [4, 1]), (3, [4]), (4, [1, 2])]

/-- An alive environment over the cyclic table whose second kill command
fails. -/
def envTree : Env :=
  { aliveExec := fun _ => .ok "",
    kill := fun i => if i = 1 then some "child fail" else none,
    children := probeCyc }

/-- A world where port 3000 hosts pids 100 and 101 and every other port hosts
its own number. -/
def wTwo : World :=
  { envOf := fun _ => envUp,
    portLookup := fun p => .ok (if p = 3000 then [100, 101] else [p]) }

/-- A cache holding value 7 for key "k" with timestamp 0. -/
def cHit : Cache Nat := fun k => if k = "k" then some (7, 0) else none

/-! ## Shared lemmas -/

/-- A dead pre-check short-circuits: success, verified, only the probe in the
trace. -/
theorem killByPid_precheck_dead (env : Env) (win : Bool) (pid : Nat) (cfg : KillOptions)
    (hpid : pid ≠ 0) (hdry : cfg.dryRun = false)
    (hdead : isProcessAlive win pid (env.aliveExec 0) = false) :
    killByPid env win pid cfg =
      .ok ({ pid := pid, success := true, verified := some true }, [Event.probe pid false]) := by
  simp [killByPid, hpid, hdry, hdead]

/-- A successful verification phase reports the operation pid. -/
theorem attemptVerify_ok_pid (env : Env) (win : Bool) (cfg : KillOptions) (pid : Nat)
    (sig : Sig) (s : PState) {r : KillResult}
    (h : (attemptVerify env win cfg pid sig s).1 = .ok r) : r.pid = pid := by
  simp only [attemptVerify] at h
  split at h
  · split at h
    · simp at h
    · simp at h; rw [← h]
  · simp at h; rw [← h]

/-- A successful attempt reports the operation pid. -/
theorem runAttempt_ok_pid (env : Env) (win : Bool) (cfg : KillOptions) (pid : Nat)
    (sig : Sig) (s : PState) {r : KillResult}
    (h : (runAttempt env win cfg pid sig s).1 = .ok r) : r.pid = pid := by
  simp only [runAttempt] at h
  split at h
  · simp at h
  · split at h
    · simp at h
    · exact attemptVerify_ok_pid env win cfg pid _ _ (by simpa using h)

/-- The retry loop always reports the operation pid. -/
theorem attemptLoop_pid (env : Env) (win : Bool) (cfg : KillOptions) (pid : Nat) :
    ∀ (fuel : Nat) (sig : Sig) (s : PState),
      (attemptLoop env win cfg pid fuel sig s).1.pid = pid := by
  intro fuel
  induction fuel with
  | zero => intro sig s; rfl
  | succ f ih =>
    intro sig s
    unfold attemptLoop
    split
    next res sig1 s1 evs heq =>
      exact runAttempt_ok_pid env win cfg pid sig s (by rw [heq])
    next msg sig1 s1 evs heq =>
      match f with
      | 0 => rfl
      | g + 1 => exact ih sig1 s1

/-- `killByPid` with a positive pid never rejects, and its result carries the
requested pid. -/
theorem killByPid_ok (env : Env) (win : Bool) (pid : Nat) (cfg : KillOptions)
    (hpid : pid ≠ 0) :
    ∃ r t, killByPid env win pid cfg = .ok (r, t) ∧ r.pid = pid := by
  unfold killByPid
  rw [if_neg hpid]
  by_cases hdry : cfg.dryRun
  · rw [if_pos hdry]; exact ⟨_, _, rfl, rfl⟩
  · rw [if_neg hdry]
    by_cases halive : isProcessAlive win pid (env.aliveExec 0)
    · simp only [halive, if_true]
      exact ⟨_, _, rfl, attemptLoop_pid env win cfg pid _ _ _⟩
    · simp only [eq_false halive, if_false]
      exact ⟨_, _, rfl, rfl⟩

/-- A settled batch entry carries the pid it was requested for. -/
theorem settleKill_pid (w : World) (win : Bool) (cfg : KillOptions) (pid : Nat) :
    (settleKill w win cfg pid).pid = pid := by
  unfold settleKill
  split
  next r _ heq =>
    by_cases hpid : pid = 0
    · subst hpid
      simp [killByPid] at heq
    · obtain ⟨r', t', hok, hp⟩ := killByPid_ok (w.envOf pid) win pid cfg hpid
      rw [hok] at heq
      cases heq
      exact hp
  next msg heq => rfl

/-! ## Claims -/

/-- Claim C2: for every positive pid whose liveness pre-check reports it not
alive, `killByPid` without `dryRun` returns `{pid, success: true, verified:
true}` and never issues a terminate command; killing an absent process is not
an error. -/
theorem claim_C2 (env : Env) (win : Bool) (pid : Nat) (cfg : KillOptions)
    (hpid : pid ≠ 0) (hdry : cfg.dryRun = false)
    (hdead : isProcessAlive win pid (env.aliveExec 0) = false) :
    ∃ trace,
      killByPid env win pid cfg =
        .ok ({ pid := pid, success := true, verified := some true }, trace) ∧
      trace.countP isKillEvent = 0 :=
  ⟨[Event.probe pid false],
    killByPid_precheck_dead env win pid cfg hpid hdry hdead, rfl⟩

/-- Witness for C2: a pid whose `kill -0` probe errors is short-circuited. -/
theorem claim_C2_witness :
    ∃ trace,
      killByPid envDead false 5 {} =
        .ok ({ pid := 5, success := true, verified := some true }, trace) ∧
      trace.countP isKillEvent = 0 :=
  claim_C2 envDead false 5 {} (by decide) rfl rfl

/-- Claim C10: `isProcessAlive` never throws; any failing or timed-out
liveness command yields `false`, and consequently `killByPid`'s pre-check
treats a pid whose probe errored as already dead, returning `{pid, success:
true, verified: true}` without attempting a kill. -/
theorem claim_C10 (env : Env) (win : Bool) (pid : Nat) (cfg : KillOptions)
    (e : ExecErr) (hpid : pid ≠ 0) (hdry : cfg.dryRun = false)
    (herr : env.aliveExec 0 = .error e) :
    isProcessAlive win pid (.error e) = false ∧
    ∃ trace,
      killByPid env win pid cfg =
        .ok ({ pid := pid, success := true, verified := some true }, trace) ∧
      trace.countP isKillEvent = 0 := by
  refine ⟨rfl, [Event.probe pid false], ?_, rfl⟩
  exact killByPid_precheck_dead env win pid cfg hpid hdry (by rw [herr]; rfl)

/-- Witness for C10: a timed-out probe counts as dead. -/
theorem claim_C10_witness :
    isProcessAlive false 5 (.error (.timedOut "Operation timed out after 1000 ms")) = false ∧
    ∃ trace,
      killByPid
        { aliveExec := fun _ => .error (.timedOut "Operation timed out after 1000 ms"),
          kill := fun _ => none, children := [] } false 5 {} =
        .ok ({ pid := 5, success := true, verified := some true }, trace) ∧
      trace.countP isKillEvent = 0 :=
  claim_C10 _ false 5 {} _ (by decide) rfl rfl

/-- Claim C9: for every valid range with `start ≤ endP`, `killByPortRange`
is the same operation as `killByPorts` on the expanded port list
`[start, start+1, ..., endP]`, so both discover and target the same
deduplicated pid set. -/
theorem claim_C9 (w : World) (win : Bool) (cfg : KillOptions) (start endP : Nat)
    (h1 : 1 ≤ start) (h2 : endP ≤ 65535) (h3 : start ≤ endP) :
    killByPortRange w win start endP cfg =
      killByPorts w win (List.range' start (endP - start + 1)) cfg := by
  unfold killByPortRange
  rw [if_neg (by omega), if_neg (by omega)]

/-- Witness for C9: the range 3000 to 3002 expands to the explicit list
[3000, 3001, 3002]. -/
theorem claim_C9_witness :
    killByPortRange wTwo false 3000 3002 {} =
      killByPorts wTwo false [3000, 3001, 3002] {} := by
  have h := claim_C9 wTwo false {} 3000 3002 (by decide) (by decide) (by decide)
  simpa using h

/-- The fetcher is not invoked again by calls that hit a fresh entry. -/
theorem cacheRun_hits (V : Type) (key : String) (fval v : V) (ttl t : Int) :
    ∀ (ts : List Int) (c : Cache V), c key = some (v, t) →
      (∀ u ∈ ts, u - t < ttl) → cacheRun V key fval ttl ts c = (c, 0) := by
  intro ts
  induction ts with
  | nil => intro c _ _; rfl
  | cons u us ih =>
    intro c hc hall
    have hu : u - t < ttl := hall u (List.mem_cons_self u us)
    simp only [cacheRun, getCached, hc, hu, if_true]
    rw [ih c hc (fun x hx => hall x (List.mem_cons_of_mem u hx))]
    rfl

/-- Claim C7: `getCached` returns a fresh entry without invoking the fetcher;
age exactly `ttl` counts as expired; a miss stores the fetched value with the
current timestamp; after `clearCache` the next call fetches; and over any
sequence of calls starting from a cleared cache whose instants all lie within
`ttl` of the first, the fetcher runs exactly once. -/
theorem claim_C7 (V : Type) (fval v : V) (key : String) (ttl now ts : Int) (c : Cache V) :
    (c key = some (v, ts) → now - ts < ttl →
      getCached V now key fval ttl c = (v, c, false)) ∧
    (c key = some (v, ts) → now - ts = ttl →
      (getCached V now key fval ttl c).2.2 = true) ∧
    (c key = none →
      getCached V now key fval ttl c =
        (fval, fun k => if k = key then some (fval, now) else c k, true)) ∧
    ((getCached V now key fval ttl (emptyCache V)).2.2 = true) ∧
    (∀ (t : Int) (rest : List Int), (∀ u ∈ rest, u - t < ttl) →
      (cacheRun V key fval ttl (t :: rest) (emptyCache V)).2 = 1) := by
  refine ⟨?_, ?_, ?_, ?_, ?_⟩
  · intro hc hfresh
    simp [getCached, hc, hfresh]
  · intro hc hstale
    simp [getCached, hc, hstale]
  · intro hc
    simp [getCached, hc]
  · simp [getCached, emptyCache]
  · intro t rest hall
    have hstore : (getCached V t key fval ttl (emptyCache V)).2.1 key = some (fval, t) := by
      simp [getCached, emptyCache]
    simp only [cacheRun]
    rw [cacheRun_hits V key fval fval ttl t rest _ hstore hall]
    simp [getCached, emptyCache]

/-- Witness for C7: a fresh hit returns the stored value without fetching,
and three calls at 0, 500 and 999 from a cleared cache fetch exactly once. -/
theorem claim_C7_witness :
    getCached Nat 500 "k" 9 1000 cHit = (7, cHit, false) ∧
    (cacheRun Nat "k" 9 1000 [0, 500, 999] (emptyCache Nat)).2 = 1 := by
  constructor
  · exact (claim_C7 Nat 9 7 "k" 1000 500 0 cHit).1 (by simp [cHit]) (by decide)
  · exact (claim_C7 Nat 9 7 "k" 1000 0 0 cHit).2.2.2.2 0 [500, 999] (by decide)

/-- Mapping `settleKill` over a pid list and reading back the pids returns
the original list. -/
theorem mapSettle_pid (w : World) (win : Bool) (cfg : KillOptions) :
    ∀ l : List Nat, (l.map (settleKill w win cfg)).map (fun r => r.pid) = l := by
  intro l
  induction l with
  | nil => rfl
  | cons p ps ih => simp [settleKill_pid, ih]

/-- Claim C6: for every non-empty pid list, `killByPids` returns exactly one
result per pid, positionally aligned (the i-th result carries the i-th pid),
and a `killByPid` that rejects becomes a `{pid, success: false, error}` entry
at that position instead of aborting or reordering the batch. -/
theorem claim_C6 (w : World) (win : Bool) (cfg : KillOptions) (pids : List Nat)
    (h : pids ≠ []) :
    ∃ rs, killByPids w win pids cfg = .ok rs ∧
      rs = pids.map (settleKill w win cfg) ∧
      rs.map (fun r => r.pid) = pids ∧
      (∀ p m, killByPid (w.envOf p) win p cfg = .error m →
        settleKill w win cfg p = { pid := p, success := false, error := some m }) ∧
      (∀ p r t, killByPid (w.envOf p) win p cfg = .ok (r, t) →
        settleKill w win cfg p = r) := by
  refine ⟨pids.map (settleKill w win cfg), ?_, rfl, mapSettle_pid w win cfg pids, ?_, ?_⟩
  · simp [killByPids, h]
  · intro p m hkb
    simp [settleKill, hkb]
  · intro p r t hkb
    simp [settleKill, hkb]

/-- Witness for C6: a batch containing the invalid pid 0 keeps its length and
order, with a failure entry in the middle. -/
theorem claim_C6_witness :
    ∃ rs, killByPids wTwo false [5, 0, 7] {} = .ok rs ∧
      rs = [5, 0, 7].map (settleKill wTwo false {}) ∧
      rs.map (fun r => r.pid) = [5, 0, 7] := by
  obtain ⟨rs, h1, h2, h3, _, _⟩ := claim_C6 wTwo false {} [5, 0, 7] (by decide)
  exact ⟨rs, h1, h2, h3⟩

/-- Claim C8: when port 3000 hosts pids [100, 101], `killByPort 3000` kills
only pid 100 (the first discovered pid), while `killByPorts [3000]` targets
the union, producing one result per pid in {100, 101}. -/
theorem claim_C8 (w : World) (win : Bool) (cfg : KillOptions)
    (h : w.portLookup 3000 = .ok [100, 101]) :
    killByPort w win 3000 cfg = killByPid (w.envOf 100) win 100 cfg ∧
    killByPorts w win [3000] cfg = killByPids w win [100, 101] cfg ∧
    ∃ rs, killByPorts w win [3000] cfg = .ok rs ∧
      rs.map (fun r => r.pid) = [100, 101] := by
  have hunion : portsUnion w [3000] = [100, 101] := by
    simp [portsUnion, findPidsByPort, h]
    rfl
  have hports : killByPorts w win [3000] cfg = killByPids w win [100, 101] cfg := by
    simp [killByPorts, hunion]
  refine ⟨?_, hports, ?_⟩
  · simp [killByPort, findPidByPort, findPidsByPort, h]
  · refine ⟨[100, 101].map (settleKill w win cfg), ?_, mapSettle_pid w win cfg [100, 101]⟩
    rw [hports]
    simp [killByPids]

/-- Witness for C8, in the world where port 3000 hosts 100 and 101. -/
theorem claim_C8_witness :
    killByPort wTwo false 3000 {} = killByPid (wTwo.envOf 100) false 100 {} ∧
    killByPorts wTwo false [3000] {} = killByPids wTwo false [100, 101] {} := by
  obtain ⟨h1, h2, _⟩ := claim_C8 wTwo false {} (by rfl)
  exact ⟨h1, h2⟩

/-- Visiting one more pid never increases the unvisited child total. -/
theorem childSum_cons_le (x : Nat) (visited : List Nat) :
    ∀ probe, childSum probe (x :: visited) ≤ childSum probe visited := by
  intro probe
  induction probe with
  | nil => exact Nat.le_refl 0
  | cons e rest ih =>
    by_cases h1 : e.1 ∈ x :: visited
    · by_cases h2 : e.1 ∈ visited
      · simpa [childSum, h1, h2] using ih
      · simp only [childSum, h1, h2, if_true, if_false]
        omega
    · have h2 : e.1 ∉ visited := fun hm => h1 (List.mem_cons_of_mem x hm)
      simp only [childSum, h1, h2, if_false]
      omega

/-- Visiting an unvisited pid removes at least its own child list from the
unvisited child total. -/
theorem childSum_lookup (q : Nat) (visited : List Nat) (hq : q ∉ visited) :
    ∀ probe, childSum probe (q :: visited) + (probeLookup probe q).length ≤
      childSum probe visited := by
  intro probe
  induction probe with
  | nil => exact Nat.le_refl 0
  | cons e rest ih =>
    obtain ⟨k, cs⟩ := e
    by_cases hk : k = q
    · subst hk
      simp only [childSum, probeLookup, if_pos rfl, List.mem_cons, true_or, if_true,
        if_neg hq]
      have := childSum_cons_le k visited rest
      omega
    · have hmem : (k ∈ q :: visited) ↔ k ∈ visited := by
        simp [List.mem_cons, hk]
      simp only [childSum, probeLookup, if_neg hk, hmem]
      by_cases h2 : k ∈ visited
      · simp only [if_pos h2]; omega
      · simp only [if_neg h2]; omega

/-- With fuel at least the queue length plus the unvisited child total, the
breadth-first search finishes its queue. -/
theorem bfsAux_total (probe : List (Nat × List Nat)) :
    ∀ (fuel : Nat) (queue visited acc : List Nat),
      queue.length + childSum probe visited ≤ fuel →
      (bfsAux probe fuel queue visited acc).isSome := by
  intro fuel
  induction fuel with
  | zero =>
    intro queue visited acc hb
    have : queue = [] := List.eq_nil_of_length_eq_zero (by omega)
    subst this
    rfl
  | succ f ih =>
    intro queue visited acc hb
    match queue with
    | [] => rfl
    | q :: qs =>
      simp only [bfsAux]
      by_cases hv : q ∈ visited
      · rw [if_pos hv]
        apply ih
        simp only [List.length_cons] at hb
        omega
      · rw [if_neg hv]
        apply ih
        have hfresh : ((probeLookup probe q).filter
            (fun c => decide (c ∉ q :: visited))).length ≤ (probeLookup probe q).length :=
          List.length_filter_le _ _
        have hdrop := childSum_lookup q visited hv probe
        simp only [List.length_append, List.length_cons] at hb ⊢
        omega

/-- The search never revisits: the final visited list is duplicate-free
whenever the initial one is. -/
theorem bfsAux_visited_nodup (probe : List (Nat × List Nat)) :
    ∀ (fuel : Nat) (queue visited acc acc' vis' : List Nat),
      bfsAux probe fuel queue visited acc = some (acc', vis') →
      visited.Nodup → vis'.Nodup := by
  intro fuel
  induction fuel with
  | zero =>
    intro queue visited acc acc' vis' heq hnd
    match queue with
    | [] => cases heq; exact hnd
    | q :: qs => cases heq
  | succ f ih =>
    intro queue visited acc acc' vis' heq hnd
    match queue with
    | [] => cases heq; exact hnd
    | q :: qs =>
      simp only [bfsAux] at heq
      by_cases hv : q ∈ visited
      · rw [if_pos hv] at heq
        exact ih qs visited acc acc' vis' heq hnd
      · rw [if_neg hv] at heq
        exact ih _ _ _ acc' vis' heq (List.Nodup.cons hv hnd)

/-- Claim C4: for every process table, including ones reporting cycles or a
pid as child of several parents, the breadth-first search of
`findDescendantPids` terminates with its fuel to spare, fetches the children
of each pid at most once (the visited list, which records exactly the pids
whose children were fetched, is duplicate-free), and the returned sequence
never contains the root. -/
theorem claim_C4 (probe : List (Nat × List Nat)) (pid : Nat) :
    ∃ acc vis,
      bfsAux probe (bfsFuel probe) [pid] [] [] = some (acc, vis) ∧
      vis.Nodup ∧
      findDescendantPids probe pid = acc.filter (fun p => p != pid) ∧
      pid ∉ findDescendantPids probe pid := by
  have htotal : (bfsAux probe (bfsFuel probe) [pid] [] []).isSome := by
    apply bfsAux_total
    simp only [List.length_cons, List.length_nil, bfsFuel, childSum]
    omega
  obtain ⟨out, heq⟩ := Option.isSome_iff_exists.mp htotal
  obtain ⟨acc, vis⟩ := out
  refine ⟨acc, vis, heq, bfsAux_visited_nodup probe _ _ _ _ _ _ heq List.nodup_nil, ?_, ?_⟩
  · simp [findDescendantPids, heq]
  · simp [findDescendantPids, heq, List.mem_filter]

/-- With no tree option and a failing root kill command, one attempt is one
failing kill command. -/
theorem runAttempt_allFail (env : Env) (pid : Nat) (cfg : KillOptions)
    (hc : cfg.tree = false) (msg : String) (sig : Sig) (s : PState)
    (hmsg : env.kill s.killIdx = some msg) :
    runAttempt env false cfg pid sig s =
      (.error msg, sig, { s with killIdx := s.killIdx + 1 },
        [Event.killCmd pid sig false]) := by
  simp [runAttempt, attemptKillPhase, killChildren, hc, hmsg]

/-- The retry loop against an environment whose kill commands all fail: every
iteration fails, the last failure message is reported, and exactly one kill
command is issued per iteration. -/
theorem allFail_loop (env : Env) (pid r : Nat) (hkill : ∀ i, env.kill i ≠ none) :
    ∀ (f : Nat) (sig : Sig) (s : PState),
      ∃ s' tr,
        attemptLoop env false { retries := r } pid (f + 1) sig s =
          ({ pid := pid, success := false, signal := some sig,
             error := env.kill (s.killIdx + f), verified := some false }, s', tr) ∧
        tr.countP isKillEvent = f + 1 := by
  intro f
  induction f with
  | zero =>
    intro sig s
    obtain ⟨msg, hmsg⟩ := Option.ne_none_iff_exists'.mp (hkill s.killIdx)
    refine ⟨{ s with killIdx := s.killIdx + 1 }, [Event.killCmd pid sig false], ?_, rfl⟩
    simp only [attemptLoop, runAttempt_allFail env pid { retries := r } rfl msg sig s hmsg,
      Nat.add_zero, hmsg]
  | succ g ih =>
    intro sig s
    obtain ⟨msg, hmsg⟩ := Option.ne_none_iff_exists'.mp (hkill s.killIdx)
    obtain ⟨s', tr, hloop, hcount⟩ := ih sig { s with killIdx := s.killIdx + 1 }
    refine ⟨s', Event.killCmd pid sig false :: Event.sleep 500 :: tr, ?_, ?_⟩
    · have hra := runAttempt_allFail env pid { retries := r } rfl msg sig s hmsg
      have harith : s.killIdx + 1 + g = s.killIdx + (g + 1) := by omega
      simp only [PState.mk.injEq] at hloop
      unfold attemptLoop
      rw [hra]
      simp only []
      rw [hloop]
      simp [harith]
    · simp [List.countP_cons, isKillEvent, hcount]

/-- Claim C1: for a positive pid that every liveness probe reports alive and
whose kill command fails on every attempt, `killByPid(pid, {retries := r})`
issues exactly r + 1 kill commands and returns `{pid, success: false, signal,
error: last failure message, verified: false}`; attempts never exceed r + 1. -/
theorem claim_C1 (env : Env) (pid r : Nat) (hpid : pid ≠ 0)
    (halive : ∀ n, isProcessAlive false pid (env.aliveExec n) = true)
    (hkill : ∀ i, env.kill i ≠ none) :
    ∃ trace,
      killByPid env false pid { retries := r } =
        .ok ({ pid := pid, success := false, signal := some Sig.SIGTERM,
               error := env.kill r, verified := some false }, trace) ∧
      trace.countP isKillEvent = r + 1 := by
  obtain ⟨s', tr, hloop, hcount⟩ := allFail_loop env pid r hkill r Sig.SIGTERM ⟨1, 0⟩
  refine ⟨Event.probe pid true :: tr, ?_, by simpa [List.countP_cons, isKillEvent] using hcount⟩
  simp only [killByPid, hpid, if_false, halive 0, if_true]
  rw [hloop]
  simp

/-- Witness for C1: three kill commands for retries = 2, with the third
failure message reported. -/
theorem claim_C1_witness :
    ∃ trace,
      killByPid envAllFail false 7 { retries := 2 } =
        .ok ({ pid := 7, success := false, signal := some Sig.SIGTERM,
               error := envAllFail.kill 2, verified := some false }, trace) ∧
      trace.countP isKillEvent = 3 :=
  claim_C1 envAllFail 7 2 (by decide) (fun _ => rfl) (fun i => by simp [envAllFail])

/-- The descendant loop issues exactly one kill command per descendant, in
order, whatever each command's outcome. -/
theorem killChildren_targets (env : Env) (sig : Sig) :
    ∀ (k : Nat) (ds : List Nat),
      (killChildren env sig k ds).map killTarget = ds.map some := by
  intro k ds
  induction ds generalizing k with
  | nil => rfl
  | cons c cs ih => simp [killChildren, killTarget, ih]

/-- Claim C5: on the POSIX path with `tree`, every attempt signals all
discovered descendants (one kill command each, in discovery order, failures
swallowed) before the kill command for the root pid is issued. -/
theorem claim_C5 (env : Env) (cfg : KillOptions) (pid : Nat) (sig : Sig) (s : PState)
    (htree : cfg.tree = true) :
    ∃ ok rest,
      (runAttempt env false cfg pid sig s).2.2.2 =
        killChildren env sig s.killIdx (findDescendantPids env.children pid) ++
          Event.killCmd pid sig ok :: rest ∧
      (killChildren env sig s.killIdx (findDescendantPids env.children pid)).map killTarget =
        (findDescendantPids env.children pid).map some := by
  have hkp : attemptKillPhase env false cfg pid sig s =
      (env.kill (s.killIdx + (findDescendantPids env.children pid).length),
       { s with killIdx := s.killIdx + (findDescendantPids env.children pid).length + 1 },
       killChildren env sig s.killIdx (findDescendantPids env.children pid) ++
         [Event.killCmd pid sig
           (env.kill (s.killIdx + (findDescendantPids env.children pid).length)).isNone]) := by
    simp [attemptKillPhase, htree]
  simp only [runAttempt, hkp]
  cases hk : env.kill (s.killIdx + (findDescendantPids env.children pid).length) with
  | some msg =>
    exact ⟨false, [], by simp, killChildren_targets env sig _ _⟩
  | none =>
    cases hep : (attemptEscalate env false cfg pid sig
        { s with killIdx := s.killIdx + (findDescendantPids env.children pid).length + 1 }).1 with
    | some msg =>
      refine ⟨true, (attemptEscalate env false cfg pid sig
          { s with killIdx := s.killIdx + (findDescendantPids env.children pid).length + 1 }).2.2.2,
        ?_, killChildren_targets env sig _ _⟩
      simp [List.append_assoc]
    | none =>
      refine ⟨true, (attemptEscalate env false cfg pid sig
            { s with killIdx := s.killIdx + (findDescendantPids env.children pid).length + 1 }).2.2.2 ++
          (attemptVerify env false cfg pid
            (attemptEscalate env false cfg pid sig
              { s with killIdx := s.killIdx + (findDescendantPids env.children pid).length + 1 }).2.1
            (attemptEscalate env false cfg pid sig
              { s with killIdx := s.killIdx + (findDescendantPids env.children pid).length + 1 }).2.2.1).2.2,
        ?_, killChildren_targets env sig _ _⟩
      simp [List.append_assoc]

/-- Witness for C5, over the cyclic table with a failing child kill. -/
theorem claim_C5_witness :
    ∃ ok rest,
      (runAttempt envTree false { tree := true } 1 Sig.SIGTERM ⟨1, 0⟩).2.2.2 =
        killChildren envTree Sig.SIGTERM 0 (findDescendantPids envTree.children 1) ++
          Event.killCmd 1 Sig.SIGTERM ok :: rest ∧
      (killChildren envTree Sig.SIGTERM 0 (findDescendantPids envTree.children 1)).map killTarget =
        (findDescendantPids envTree.children 1).map some :=
  claim_C5 envTree { tree := true } 1 Sig.SIGTERM ⟨1, 0⟩ rfl

/-- A trace without escalation events trivially satisfies `GoodEsc`. -/
theorem GoodEsc_of_noEsc (env : Env) (win : Bool) (pid : Nat) (cfg : KillOptions)
    (tr : List Event) (h : ∀ e ∈ tr, ¬ (isEscEvent e = true)) :
    GoodEsc env win pid cfg tr := by
  intro p f t d i hmem
  exact absurd rfl (h _ hmem)

/-- `GoodEsc` is closed under concatenation. -/
theorem GoodEsc_append (env : Env) (win : Bool) (pid : Nat) (cfg : KillOptions)
    (tr1 tr2 : List Event) (h1 : GoodEsc env win pid cfg tr1)
    (h2 : GoodEsc env win pid cfg tr2) : GoodEsc env win pid cfg (tr1 ++ tr2) := by
  intro p f t d i hmem
  rcases List.mem_append.mp hmem with hm | hm
  · exact h1 p f t d i hm
  · exact h2 p f t d i hm

/-- The descendant loop emits only kill commands. -/
theorem killChildren_noEsc (env : Env) (sig : Sig) :
    ∀ (k : Nat) (ds : List Nat) (e : Event), e ∈ killChildren env sig k ds →
      ¬ (isEscEvent e = true) := by
  intro k ds
  induction ds generalizing k with
  | nil => intro e he; cases he
  | cons c cs ih =>
    intro e he
    rcases List.mem_cons.mp he with rfl | hm
    · simp [isEscEvent]
    · exact ih (k + 1) e hm

/-- The terminate phase emits no escalation event. -/
theorem attemptKillPhase_noEsc (env : Env) (win : Bool) (cfg : KillOptions) (pid : Nat)
    (sig : Sig) (s : PState) :
    ∀ e ∈ (attemptKillPhase env win cfg pid sig s).2.2, ¬ (isEscEvent e = true) := by
  intro e he
  by_cases hw : win
  · simp [attemptKillPhase, hw] at he
    simp [he, isEscEvent]
  · simp only [attemptKillPhase, hw, Bool.false_eq_true, if_false] at he
    rcases List.mem_append.mp he with hm | hm
    · exact killChildren_noEsc env sig _ _ e hm
    · simp at hm
      simp [hm, isEscEvent]

/-- The verification phase emits no escalation event. -/
theorem attemptVerify_noEsc (env : Env) (win : Bool) (cfg : KillOptions) (pid : Nat)
    (sig : Sig) (s : PState) :
    ∀ e ∈ (attemptVerify env win cfg pid sig s).2.2, ¬ (isEscEvent e = true) := by
  intro e he
  by_cases hv : cfg.verify
  · by_cases ha : isProcessAlive win pid (env.aliveExec s.aliveIdx)
    all_goals
      simp [attemptVerify, hv, ha] at he
      rcases he with rfl | rfl <;> simp [isEscEvent]
  · simp [attemptVerify, hv] at he

/-- The escalation phase: at most `escBound sig` escalations, all well formed,
and either the signal in use becomes SIGKILL or it is unchanged with no
escalation recorded. -/
theorem attemptEscalate_spec (env : Env) (win : Bool) (cfg : KillOptions) (pid : Nat)
    (sig : Sig) (s : PState) :
    (attemptEscalate env win cfg pid sig s).2.2.2.countP isEscEvent ≤ escBound sig ∧
    GoodEsc env win pid cfg (attemptEscalate env win cfg pid sig s).2.2.2 ∧
    ((attemptEscalate env win cfg pid sig s).2.1 = Sig.SIGKILL ∨
      ((attemptEscalate env win cfg pid sig s).2.1 = sig ∧
        (attemptEscalate env win cfg pid sig s).2.2.2.countP isEscEvent = 0)) := by
  by_cases hg : (cfg.forceAfterTimeout && !win && sig != Sig.SIGKILL) = true
  · have hparts : (cfg.forceAfterTimeout = true ∧ win = false) ∧ ¬ sig = Sig.SIGKILL := by
      simpa [Bool.and_eq_true, Bool.not_eq_true', bne_iff_ne] using hg
    obtain ⟨⟨hforce, hwin⟩, hsig⟩ := hparts
    by_cases ha : isProcessAlive win pid (env.aliveExec s.aliveIdx)
    · refine ⟨?_, ?_, Or.inl ?_⟩
      · simp [attemptEscalate, hg, ha, List.countP_cons, isEscEvent, escBound, hsig]
      · intro p f t d i hmem
        simp [attemptEscalate, hg, ha] at hmem
        obtain ⟨hp, hf, ht, hd, hi⟩ := hmem
        subst hp; subst hf; subst hd; subst hi
        exact ⟨rfl, hsig, ht, rfl, hforce, hwin, ha⟩
      · simp [attemptEscalate, hg, ha]
    · refine ⟨?_, ?_, Or.inr ⟨?_, ?_⟩⟩
      · simp [attemptEscalate, hg, ha, List.countP_cons, isEscEvent]
      · apply GoodEsc_of_noEsc
        intro e he
        simp [attemptEscalate, hg, ha] at he
        rcases he with rfl | rfl <;> simp [isEscEvent]
      · simp [attemptEscalate, hg, ha]
      · simp [attemptEscalate, hg, ha, List.countP_cons, isEscEvent]
  · refine ⟨?_, ?_, Or.inr ⟨?_, ?_⟩⟩
    · simp [attemptEscalate, hg]
    · apply GoodEsc_of_noEsc
      intro e he
      simp [attemptEscalate, hg] at he
    · simp [attemptEscalate, hg]
    · simp [attemptEscalate, hg]

/-- One attempt: at most `escBound sig` escalations, all well formed, and the
signal in use either becomes SIGKILL or stays `sig` with no escalation. -/
theorem runAttempt_spec (env : Env) (win : Bool) (cfg : KillOptions) (pid : Nat)
    (sig : Sig) (s : PState) :
    (runAttempt env win cfg pid sig s).2.2.2.countP isEscEvent ≤ escBound sig ∧
    GoodEsc env win pid cfg (runAttempt env win cfg pid sig s).2.2.2 ∧
    ((runAttempt env win cfg pid sig s).2.1 = Sig.SIGKILL ∨
      ((runAttempt env win cfg pid sig s).2.1 = sig ∧
        (runAttempt env win cfg pid sig s).2.2.2.countP isEscEvent = 0)) := by
  have hkpz : (attemptKillPhase env win cfg pid sig s).2.2.countP isEscEvent = 0 :=
    List.countP_eq_zero.mpr (attemptKillPhase_noEsc env win cfg pid sig s)
  have hkpg : GoodEsc env win pid cfg (attemptKillPhase env win cfg pid sig s).2.2 :=
    GoodEsc_of_noEsc env win pid cfg _ (attemptKillPhase_noEsc env win cfg pid sig s)
  cases hkp : (attemptKillPhase env win cfg pid sig s).1 with
  | some msg =>
    have hre : runAttempt env win cfg pid sig s =
        (.error msg, sig, (attemptKillPhase env win cfg pid sig s).2.1,
          (attemptKillPhase env win cfg pid sig s).2.2) := by
      simp only [runAttempt, hkp]
    rw [hre]
    exact ⟨le_of_eq_of_le hkpz (Nat.zero_le _), hkpg, Or.inr ⟨rfl, hkpz⟩⟩
  | none =>
    obtain ⟨hec, heg, hed⟩ :=
      attemptEscalate_spec env win cfg pid sig (attemptKillPhase env win cfg pid sig s).2.1
    cases hep : (attemptEscalate env win cfg pid sig (attemptKillPhase env win cfg pid sig s).2.1).1 with
    | some msg =>
      have hre : runAttempt env win cfg pid sig s =
          (.error msg,
            (attemptEscalate env win cfg pid sig (attemptKillPhase env win cfg pid sig s).2.1).2.1,
            (attemptEscalate env win cfg pid sig (attemptKillPhase env win cfg pid sig s).2.1).2.2.1,
            (attemptKillPhase env win cfg pid sig s).2.2 ++
              (attemptEscalate env win cfg pid sig
                (attemptKillPhase env win cfg pid sig s).2.1).2.2.2) := by
        simp only [runAttempt, hkp, hep]
      rw [hre]
      refine ⟨?_, GoodEsc_append env win pid cfg _ _ hkpg heg, ?_⟩
      · rw [List.countP_append, hkpz]
        omega
      · rcases hed with h | ⟨h1, h2⟩
        · exact Or.inl h
        · refine Or.inr ⟨h1, ?_⟩
          rw [List.countP_append, hkpz, h2]
    | none =>
      have hvz : (attemptVerify env win cfg pid
          (attemptEscalate env win cfg pid sig (attemptKillPhase env win cfg pid sig s).2.1).2.1
          (attemptEscalate env win cfg pid sig
            (attemptKillPhase env win cfg pid sig s).2.1).2.2.1).2.2.countP isEscEvent = 0 :=
        List.countP_eq_zero.mpr (attemptVerify_noEsc env win cfg pid _ _)
      have hvg : GoodEsc env win pid cfg (attemptVerify env win cfg pid
          (attemptEscalate env win cfg pid sig (attemptKillPhase env win cfg pid sig s).2.1).2.1
          (attemptEscalate env win cfg pid sig
            (attemptKillPhase env win cfg pid sig s).2.1).2.2.1).2.2 :=
        GoodEsc_of_noEsc env win pid cfg _ (attemptVerify_noEsc env win cfg pid _ _)
      have hre : runAttempt env win cfg pid sig s =
          ((attemptVerify env win cfg pid
              (attemptEscalate env win cfg pid sig (attemptKillPhase env win cfg pid sig s).2.1).2.1
              (attemptEscalate env win cfg pid sig
                (attemptKillPhase env win cfg pid sig s).2.1).2.2.1).1,
            (attemptEscalate env win cfg pid sig (attemptKillPhase env win cfg pid sig s).2.1).2.1,
            (attemptVerify env win cfg pid
              (attemptEscalate env win cfg pid sig (attemptKillPhase env win cfg pid sig s).2.1).2.1
              (attemptEscalate env win cfg pid sig
                (attemptKillPhase env win cfg pid sig s).2.1).2.2.1).2.1,
            (attemptKillPhase env win cfg pid sig s).2.2 ++
              (attemptEscalate env win cfg pid sig
                (attemptKillPhase env win cfg pid sig s).2.1).2.2.2 ++
              (attemptVerify env win cfg pid
                (attemptEscalate env win cfg pid sig (attemptKillPhase env win cfg pid sig s).2.1).2.1
                (attemptEscalate env win cfg pid sig
                  (attemptKillPhase env win cfg pid sig s).2.1).2.2.1).2.2) := by
        simp only [runAttempt, hkp, hep]
      rw [hre]
      refine ⟨?_, ?_, ?_⟩
      · rw [List.countP_append, List.countP_append, hkpz, hvz]
        omega
      · exact GoodEsc_append env win pid cfg _ _
          (GoodEsc_append env win pid cfg _ _ hkpg heg) hvg
      · rcases hed with h | ⟨h1, h2⟩
        · exact Or.inl h
        · refine Or.inr ⟨h1, ?_⟩
          rw [List.countP_append, List.countP_append, hkpz, hvz, h2]

/-- The retry loop: at most `escBound sig` escalations across all remaining
attempts, all well formed. -/
theorem attemptLoop_spec (env : Env) (win : Bool) (cfg : KillOptions) (pid : Nat) :
    ∀ (fuel : Nat) (sig : Sig) (s : PState),
      (attemptLoop env win cfg pid fuel sig s).2.2.countP isEscEvent ≤ escBound sig ∧
      GoodEsc env win pid cfg (attemptLoop env win cfg pid fuel sig s).2.2 := by
  intro fuel
  induction fuel with
  | zero =>
    intro sig s
    exact ⟨Nat.zero_le _, GoodEsc_of_noEsc env win pid cfg [] (by intro e he; cases he)⟩
  | succ f ih =>
    intro sig s
    obtain ⟨hc, hg, hd⟩ := runAttempt_spec env win cfg pid sig s
    unfold attemptLoop
    rcases hre : runAttempt env win cfg pid sig s with ⟨r1, sig1, s1, evs⟩
    rw [hre] at hc hg hd
    cases r1 with
    | ok r => exact ⟨hc, hg⟩
    | error msg =>
      match f with
      | 0 => exact ⟨hc, hg⟩
      | g + 1 =>
        obtain ⟨ihc, ihg⟩ := ih sig1 s1
        constructor
        · rw [List.countP_append, List.countP_cons]
          have hsleep : isEscEvent (Event.sleep 500) = false := rfl
          have hc' : evs.countP isEscEvent ≤ escBound sig := hc
          rcases hd with h | ⟨h1, h2⟩
          · have h' : sig1 = Sig.SIGKILL := h
            subst h'
            have hz : escBound Sig.SIGKILL = 0 := by simp [escBound]
            rw [hz] at ihc
            have ihz : List.countP isEscEvent
                (attemptLoop env win cfg pid (g + 1) Sig.SIGKILL s1).2.2 = 0 :=
              Nat.le_zero.mp ihc
            simp [hsleep, ihz]
            omega
          · have h1' : sig1 = sig := h1
            have h2' : evs.countP isEscEvent = 0 := h2
            subst h1'
            simp [hsleep, h2']
            omega
        · refine GoodEsc_append env win pid cfg _ _ hg ?_
          intro p f' t d i hmem
          rcases List.mem_cons.mp hmem with h | h
          · cases h
          · exact ihg p f' t d i h

/-- Claim C3: within one `killByPid` operation, any configuration and any
number of retries, escalation occurs at most once, only replaces a
non-SIGKILL signal in use by SIGKILL, and fires only on the POSIX path with
`forceAfterTimeout` set, after waiting `escalationDelayMs`, and only when the
deciding liveness probe still reported the process alive. -/
theorem claim_C3 (env : Env) (win : Bool) (pid : Nat) (cfg : KillOptions)
    (res : KillResult) (trace : List Event)
    (h : killByPid env win pid cfg = .ok (res, trace)) :
    trace.countP isEscEvent ≤ 1 ∧
    ∀ p f t d i, Event.escalate p f t d i ∈ trace →
      p = pid ∧ f ≠ Sig.SIGKILL ∧ t = Sig.SIGKILL ∧ d = cfg.escalationDelayMs ∧
      cfg.forceAfterTimeout = true ∧ win = false ∧
      isProcessAlive win pid (env.aliveExec i) = true := by
  have hbound : escBound cfg.signal ≤ 1 := by
    by_cases hs : cfg.signal = Sig.SIGKILL <;> simp [escBound, hs]
  by_cases hpid : pid = 0
  · simp [killByPid, hpid] at h
  by_cases hdry : cfg.dryRun
  · simp only [killByPid, hpid, if_false, hdry, if_true, Except.ok.injEq, Prod.mk.injEq] at h
    obtain ⟨-, htr⟩ := h
    subst htr
    exact ⟨Nat.zero_le _, by intro p f t d i hmem; cases hmem⟩
  by_cases halive : isProcessAlive win pid (env.aliveExec 0)
  · simp only [killByPid, hpid, if_false, hdry, Bool.false_eq_true, halive, if_true,
      Except.ok.injEq, Prod.mk.injEq] at h
    obtain ⟨-, htr⟩ := h
    subst htr
    obtain ⟨hc, hg⟩ := attemptLoop_spec env win cfg pid (cfg.retries + 1) cfg.signal ⟨1, 0⟩
    constructor
    · rw [List.countP_cons]
      simp [isEscEvent]
      exact le_trans hc hbound
    · intro p f t d i hmem
      rcases List.mem_cons.mp hmem with hmm | hmm
      · cases hmm
      · exact hg p f t d i hmm
  · simp only [killByPid, hpid, if_false, hdry, Bool.false_eq_true, eq_false halive,
      if_false, Except.ok.injEq, Prod.mk.injEq] at h
    obtain ⟨-, htr⟩ := h
    subst htr
    refine ⟨by simp [List.countP_cons, isEscEvent], ?_⟩
    intro p f t d i hmem
    rcases List.mem_cons.mp hmem with hmm | hmm
    · cases hmm
    · cases hmm

/-- Witness for C3: a run that actually escalates once, SIGTERM to SIGKILL. -/
theorem claim_C3_witness :
    ([Event.probe 5 true, Event.killCmd 5 Sig.SIGTERM true, Event.sleep 3000,
      Event.probe 5 true, Event.escalate 5 Sig.SIGTERM Sig.SIGKILL 3000 1,
      Event.killCmd 5 Sig.SIGKILL true] : List Event).countP isEscEvent ≤ 1 :=
  (claim_C3 envUp false 5 { forceAfterTimeout := true }
    { pid := 5, success := true, signal := some Sig.SIGKILL }
    [Event.probe 5 true, Event.killCmd 5 Sig.SIGTERM true, Event.sleep 3000,
      Event.probe 5 true, Event.escalate 5 Sig.SIGTERM Sig.SIGKILL 3000 1,
      Event.killCmd 5 Sig.SIGKILL true] rfl).1

end KProc
